import Mathlib

/-!
Shallow embedding of the retry middleware in
`src/http/typescript/fetch/src/middlewares/retryHandler.ts`.

JavaScript numbers are modelled as rationals (`ℚ`); `NaN` is modelled as
`Option.none` where it can arise (the delay computation).  `Math.random`
draws are modelled as an ambient tape `g : Nat → ℚ` of already-rounded
`Number(Math.random().toFixed(3))` values, consumed left to right; the
host `Date` parser and clock are parameters (`dateParse`, `now`).  The
downstream pipeline step is a function from the invocation index to either
a transport failure or a response.
-/

namespace RetryHandler

/-- A fetch response as the retry handler sees it: a status code and the
header list when `response.headers !== undefined`. -/
structure FetchResponse where
  status : Nat
  headers : Option (List (String × String))

/-- Request options (`FetchRequestInit`): an optional method string and a
header map (an absent header map is modelled as the empty list). -/
structure FetchRequestInit where
  method : Option String
  headers : List (String × String)

/-- The request info is a URL string in the scenarios this layer inspects. -/
def FetchRequestInfo : Type := String

/-- Header lookup (`Headers.get`): case-insensitive, `null` when absent. -/
def headersGet (hs : List (String × String)) (k : String) : Option String :=
  match hs.find? (fun p => p.1.toLower == k.toLower) with
  | some p => some p.2
  | none => none

/-- Modelled from the spec: `getRequestHeader` from `middlewareUtil` (not in
the provided sources) reads a header value from the header map of the request
map (spec section 3: requestOptions is a mutable header map). -/
def getRequestHeader (request : FetchRequestInfo) (opts : Option FetchRequestInit)
    (key : String) : Option String :=
  match opts with
  | some o => headersGet o.headers key
  | none => none

/-- Replace-or-insert on a header map. -/
def setHeader (hs : List (String × String)) (k v : String) : List (String × String) :=
  if hs.any (fun p => p.1.toLower == k.toLower) then
    hs.map (fun p => if p.1.toLower == k.toLower then (k, v) else p)
  else
    hs ++ [(k, v)]

/-- Modelled from the spec: `setRequestHeader` from `middlewareUtil` (not in
the provided sources) stamps a header value into the header map of the request
map, replacing any existing value for that name (spec sections 4.3 and 8:
stamping is idempotent, no accumulation). -/
def setRequestHeader (request : FetchRequestInfo) (opts : Option FetchRequestInit)
    (k v : String) : Option FetchRequestInit :=
  match opts with
  | some o => some { o with headers := setHeader o.headers k v }
  | none => none

/-- Modelled from the spec: the `HttpMethod` string enum from the
abstractions package (not in the provided sources); its values are the
upper-case method names. -/
def HttpMethod.PUT : String := "PUT"

/-- Modelled from the spec: `HttpMethod.PATCH` enum value. -/
def HttpMethod.PATCH : String := "PATCH"

/-- Modelled from the spec: `HttpMethod.POST` enum value. -/
def HttpMethod.POST : String := "POST"

/-- A JavaScript value as it appears on the left of the strict-equality
comparisons in `isBuffered`: a string, an options object, or `undefined`. -/
inductive JsVal where
  | str : String → JsVal
  | obj : FetchRequestInit → JsVal
  | undef : JsVal

/-- JavaScript strict equality `===` against a string: true only when the
left operand is a string with the same contents; an object or `undefined`
compared to a string is always `false`. -/
def jsStrictEqS (v : JsVal) (s : String) : Bool :=
  match v with
  | JsVal.str t => t == s
  | _ => false

/-- Modelled from the spec: the recognized configuration surface
(spec section 6): `maxRetries` (default 3), `delay` in seconds (default 3),
`maxDelay` in seconds (default 180), and the `shouldRetry` predicate
(default: always true).  `getMaxDelay()` returns the `maxDelay` field. -/
structure RetryHandlerOptions where
  maxRetries : Nat
  delay : ℚ
  maxDelay : ℚ
  shouldRetry : ℚ → Nat → FetchRequestInfo → Option FetchRequestInit → FetchResponse → Bool

/-- The context of one exchange: request, request options, last response. -/
structure MiddlewareContext where
  request : FetchRequestInfo
  reqOptions : Option FetchRequestInit
  response : FetchResponse

/-- The retryable status codes, `RetryHandler.RETRY_STATUS_CODES`. -/
def RETRY_STATUS_CODES : List Nat := [429, 503, 504]

/-- Embeds `RetryHandler.isRetry`:
`RETRY_STATUS_CODES.indexOf(response.status) !== -1`. -/
def isRetry (response : FetchResponse) : Bool :=
  RETRY_STATUS_CODES.contains response.status

/-- Embeds `RetryHandler.isBuffered`.  The source reads
`const method = options` — it binds the whole options object (or
`undefined`), not `options.method` — and then compares that value with
`===` against the `HttpMethod` string constants. -/
def isBuffered (request : FetchRequestInfo) (opts : Option FetchRequestInit) : Bool :=
  let method : JsVal :=
    match opts with
    | some o => JsVal.obj o
    | none => JsVal.undef
  let isPutPatchOrPost : Bool :=
    jsStrictEqS method HttpMethod.PUT || jsStrictEqS method HttpMethod.PATCH
      || jsStrictEqS method HttpMethod.POST
  if isPutPatchOrPost then
    let isStream : Bool :=
      getRequestHeader request opts "Content-Type" == some "application/octet-stream"
    if isStream then false else true
  else true

/-- Digits of a decimal literal folded to a natural number; `none` when a
non-digit occurs. -/
def digitsToNat (cs : List Char) : Option Nat :=
  cs.foldl
    (fun acc c =>
      match acc with
      | none => none
      | some n => if c.isDigit then some (n * 10 + (c.toNat - 48)) else none)
    (some 0)

/-- Modelled from the spec: the host `Number(string)` conversion on a
`Retry-After` header value, which the spec (section 6) fixes to be an
integer number of seconds when numeric.  Returns `none` for `NaN`
(a non-numeric string such as an HTTP date); the empty string converts
to `0` as in JavaScript. -/
def jsNumber (s : String) : Option ℚ :=
  match s.data with
  | [] => some 0
  | '-' :: cs => if cs.isEmpty then none else (digitsToNat cs).map (fun n => -(n : ℚ))
  | '+' :: cs => if cs.isEmpty then none else (digitsToNat cs).map (fun n => (n : ℚ))
  | cs => (digitsToNat cs).map (fun n => (n : ℚ))

/-- JavaScript `Math.round`: round half toward positive infinity. -/
def jsRound (q : ℚ) : Int := ⌊q + 1 / 2⌋

/-- JavaScript `Math.min` with `NaN` propagation (`none` is `NaN`). -/
def jsMin (a b : Option ℚ) : Option ℚ :=
  match a, b with
  | some x, some y => some (min x y)
  | _, _ => none

/-- Embeds `RetryHandler.getExponentialBackOffTime`:
`Math.round((1 / 2) * (2 ** attempts - 1))`. -/
def getExponentialBackOffTime (attempts : Nat) : ℚ :=
  (jsRound ((1 / 2) * (2 ^ attempts - 1)) : ℚ)

/-- Embeds `RetryHandler.getDelay`.  `g` is the tape of
`Number(Math.random().toFixed(3))` draws and `i` the index of the next
unused draw; `dateParse` models `new Date(s).getTime()` (`none` for an
invalid date, i.e. `NaN`) and `now` models `Date.now()`, both in
milliseconds.  Returns the computed delay (`none` for `NaN`) together with
the index of the next unused draw. -/
def getDelay (dateParse : String → Option Int) (now : Int) (g : Nat → ℚ) (i : Nat)
    (response : FetchResponse) (retryAttempts : Nat) (delay : ℚ) (maxDelay : ℚ) :
    Option ℚ × Nat :=
  let retryAfter : Option String :=
    match response.headers with
    | some hs => headersGet hs "Retry-After"
    | none => none
  match retryAfter with
  | some ra =>
    let newDelay : Option ℚ :=
      match jsNumber ra with
      | none =>
        match dateParse ra with
        | some t => some ((jsRound (((t : ℚ) - (now : ℚ)) / 1000)) : ℚ)
        | none => none
      | some q => some q
    (jsMin newDelay (some (maxDelay + g i)), i + 1)
  | none =>
    let newDelay : ℚ :=
      if retryAttempts ≥ 2 then getExponentialBackOffTime retryAttempts + delay + g i
      else delay + g i
    (jsMin (some newDelay) (some (maxDelay + g (i + 1))), i + 2)

/-- Embeds `RetryHandler.executeWithRetry`.  `respond` is the downstream
pipeline step, mapping the invocation index to a transport failure or a
response (`await this.next.execute(context)` assigns `context.response`; a
rejection propagates since there is no try/catch).  `count` is the number
of downstream invocations made so far, `ti` the jitter-tape index, and
`handlerMaxDelay` the value of `this.options.getMaxDelay()` on the handler (the
source reads it from the constructor options, not the resolved per-call
options).  Returns the final outcome together with the total number of
downstream invocations; `sleep` does not affect control flow. -/
def executeWithRetry {ε : Type} (respond : Nat → Except ε FetchResponse)
    (dateParse : String → Option Int) (now : Int) (g : Nat → ℚ) (ti : Nat)
    (ctx : MiddlewareContext) (retryAttempts : Nat) (opts : RetryHandlerOptions)
    (handlerMaxDelay : ℚ) (count : Nat) : Except ε MiddlewareContext × Nat :=
  match respond count with
  | Except.error e => (Except.error e, count + 1)
  | Except.ok resp =>
    if h : (decide (retryAttempts < opts.maxRetries) && isRetry resp
        && isBuffered ctx.request ctx.reqOptions
        && opts.shouldRetry opts.delay retryAttempts ctx.request ctx.reqOptions
            resp) = true then
      executeWithRetry respond dateParse now g
        (getDelay dateParse now g ti resp (retryAttempts + 1) opts.delay handlerMaxDelay).2
        { request := ctx.request,
          reqOptions := setRequestHeader ctx.request ctx.reqOptions "Retry-Attempt"
            (toString (retryAttempts + 1)),
          response := resp }
        (retryAttempts + 1) opts handlerMaxDelay (count + 1)
    else
      (Except.ok { ctx with response := resp }, count + 1)
termination_by opts.maxRetries - retryAttempts
decreasing_by
  simp only [Bool.and_eq_true, decide_eq_true_eq] at h
  omega

/-- Embeds `RetryHandler.execute`: start the loop with attempt counter 0
(options resolution is a parameter here; no invocation has happened yet). -/
def execute {ε : Type} (respond : Nat → Except ε FetchResponse)
    (dateParse : String → Option Int) (now : Int) (g : Nat → ℚ)
    (ctx : MiddlewareContext) (opts : RetryHandlerOptions)
    (handlerMaxDelay : ℚ) : Except ε MiddlewareContext × Nat :=
  executeWithRetry respond dateParse now g 0 ctx 0 opts handlerMaxDelay 0

/-! Concrete fixtures used to instantiate the theorems below. -/

/-- A date parser that recognizes no string (every value is an invalid date). -/
def dpNone : String → Option Int := fun _ => none

/-- The all-zero jitter tape. -/
def noJitter : Nat → ℚ := fun _ => 0

/-- A jitter tape that agrees with `noJitter` on its first draw only. -/
def halfJitterLater : Nat → ℚ := fun k => if k = 0 then 0 else 1 / 2

/-- The default `shouldRetry` of the spec: always approve. -/
def alwaysRetry : ℚ → Nat → FetchRequestInfo → Option FetchRequestInit → FetchResponse → Bool :=
  fun _ _ _ _ _ => true

/-- A `shouldRetry` predicate that always vetoes. -/
def neverRetry : ℚ → Nat → FetchRequestInfo → Option FetchRequestInit → FetchResponse → Bool :=
  fun _ _ _ _ _ => false

/-- A 200 response with an empty header list. -/
def resp200 : FetchResponse := ⟨200, some []⟩

/-- A 503 response with an empty header list. -/
def resp503 : FetchResponse := ⟨503, some []⟩

/-- A 503 response whose Retry-After value is neither a number nor a date the
environment can parse. -/
def respBadDate : FetchResponse := ⟨503, some [("Retry-After", "next Tuesday")]⟩

/-- A GET exchange context. -/
def ctxGet : MiddlewareContext :=
  ⟨"https://example.com", some ⟨some "GET", []⟩, ⟨200, none⟩⟩

/-- A POST exchange context whose body is an octet-stream. -/
def ctxPostStream : MiddlewareContext :=
  ⟨"https://example.com",
    some ⟨some "POST", [("Content-Type", "application/octet-stream")]⟩, ⟨200, none⟩⟩

/-- The default configuration from the spec. -/
def optsDefault : RetryHandlerOptions := ⟨3, 3, 180, alwaysRetry⟩

/-- Default configuration with a single retry allowed. -/
def optsOne : RetryHandlerOptions := ⟨1, 3, 180, alwaysRetry⟩

/-- Default configuration whose predicate always vetoes. -/
def optsNever : RetryHandlerOptions := ⟨3, 3, 180, neverRetry⟩

/-! Helper lemmas about the embedding, shared by the claim theorems below. -/

/-- The method test in `isBuffered` compares the options object (or
`undefined`) against method strings, so it never succeeds and the whole
check is constantly `true`. -/
theorem isBuffered_eq_true (request : FetchRequestInfo) (opts : Option FetchRequestInit) :
    isBuffered request opts = true := by
  cases opts <;> rfl

/-- Upper bound on the invocation count: at most `maxRetries - retryAttempts`
further retries can be approved beyond the invocation made in this call. -/
theorem executeWithRetry_count_le {ε : Type} (respond : Nat → Except ε FetchResponse)
    (dateParse : String → Option Int) (now : Int) (g : Nat → ℚ)
    (ti : Nat) (ctx : MiddlewareContext) (retryAttempts : Nat)
    (opts : RetryHandlerOptions) (handlerMaxDelay : ℚ) (count : Nat) :
    (executeWithRetry respond dateParse now g ti ctx retryAttempts opts handlerMaxDelay
      count).2 ≤ count + (opts.maxRetries - retryAttempts) + 1 := by
  induction ti, ctx, retryAttempts, opts, handlerMaxDelay, count
    using executeWithRetry.induct respond dateParse now g with
  | case1 ti ctx a opts hm c e hresp =>
    rw [executeWithRetry.eq_def]
    simp only [hresp]
    omega
  | case2 ti ctx a opts hm c resp hresp hcond ih =>
    rw [executeWithRetry.eq_def]
    simp only [hresp]
    have ha : a < opts.maxRetries := by
      simp only [Bool.and_eq_true, decide_eq_true_eq] at hcond
      exact hcond.1.1.1
    rw [dif_pos hcond]
    exact le_trans ih (by omega)
  | case3 ti ctx a opts hm c resp hresp hcond =>
    rw [executeWithRetry.eq_def]
    simp only [hresp]
    rw [dif_neg hcond]
    omega

/-- Lower bound on the invocation count: at least one downstream invocation
happens in every call of the loop body. -/
theorem executeWithRetry_count_ge {ε : Type} (respond : Nat → Except ε FetchResponse)
    (dateParse : String → Option Int) (now : Int) (g : Nat → ℚ)
    (ti : Nat) (ctx : MiddlewareContext) (retryAttempts : Nat)
    (opts : RetryHandlerOptions) (handlerMaxDelay : ℚ) (count : Nat) :
    count + 1 ≤ (executeWithRetry respond dateParse now g ti ctx retryAttempts opts
      handlerMaxDelay count).2 := by
  induction ti, ctx, retryAttempts, opts, handlerMaxDelay, count
    using executeWithRetry.induct respond dateParse now g with
  | case1 ti ctx a opts hm c e hresp =>
    rw [executeWithRetry.eq_def]
    simp only [hresp]
    omega
  | case2 ti ctx a opts hm c resp hresp hcond ih =>
    rw [executeWithRetry.eq_def]
    simp only [hresp]
    rw [dif_pos hcond]
    omega
  | case3 ti ctx a opts hm c resp hresp hcond =>
    rw [executeWithRetry.eq_def]
    simp only [hresp]
    rw [dif_neg hcond]

/-- Exact invocation count when every response is received and retryable and
the predicate always approves: the loop runs the retry budget down to zero. -/
theorem executeWithRetry_count_exact {ε : Type} (respond : Nat → Except ε FetchResponse)
    (dateParse : String → Option Int) (now : Int) (g : Nat → ℚ)
    (hok : ∀ k, ∃ r, respond k = Except.ok r ∧ isRetry r = true)
    (ti : Nat) (ctx : MiddlewareContext) (retryAttempts : Nat)
    (opts : RetryHandlerOptions) (handlerMaxDelay : ℚ) (count : Nat)
    (hsr : ∀ d a req o resp, opts.shouldRetry d a req o resp = true) :
    (executeWithRetry respond dateParse now g ti ctx retryAttempts opts handlerMaxDelay
      count).2 = count + (opts.maxRetries - retryAttempts) + 1 := by
  induction ti, ctx, retryAttempts, opts, handlerMaxDelay, count
    using executeWithRetry.induct respond dateParse now g with
  | case1 ti ctx a opts hm c e hresp =>
    obtain ⟨r, hr, _⟩ := hok c
    rw [hresp] at hr
    exact absurd hr (by simp)
  | case2 ti ctx a opts hm c resp hresp hcond ih =>
    rw [executeWithRetry.eq_def]
    simp only [hresp]
    have ha : a < opts.maxRetries := by
      simp only [Bool.and_eq_true, decide_eq_true_eq] at hcond
      exact hcond.1.1.1
    rw [dif_pos hcond]
    rw [ih hsr]
    omega
  | case3 ti ctx a opts hm c resp hresp hcond =>
    rw [executeWithRetry.eq_def]
    simp only [hresp]
    rw [dif_neg hcond]
    obtain ⟨r, hr, hretry⟩ := hok c
    rw [hresp] at hr
    injection hr with hr
    subst hr
    have ha : ¬ a < opts.maxRetries := by
      intro hlt
      apply hcond
      simp only [Bool.and_eq_true, decide_eq_true_eq]
      exact ⟨⟨⟨hlt, hretry⟩, isBuffered_eq_true _ _⟩, hsr _ _ _ _ _⟩
    show c + 1 = c + (opts.maxRetries - a) + 1
    omega

/-- A transport failure surfaces unmodified: when the outcome of the loop is an
error, it is exactly the error the downstream step raised at the last
invocation that was made. -/
theorem executeWithRetry_error {ε : Type} (respond : Nat → Except ε FetchResponse)
    (dateParse : String → Option Int) (now : Int) (g : Nat → ℚ)
    (ti : Nat) (ctx : MiddlewareContext) (retryAttempts : Nat)
    (opts : RetryHandlerOptions) (handlerMaxDelay : ℚ) (count : Nat) (e : ε)
    (herr : (executeWithRetry respond dateParse now g ti ctx retryAttempts opts
      handlerMaxDelay count).1 = Except.error e) :
    respond ((executeWithRetry respond dateParse now g ti ctx retryAttempts opts
      handlerMaxDelay count).2 - 1) = Except.error e := by
  induction ti, ctx, retryAttempts, opts, handlerMaxDelay, count
    using executeWithRetry.induct respond dateParse now g with
  | case1 ti ctx a opts hm c e2 hresp =>
    rw [executeWithRetry.eq_def] at herr ⊢
    simp only [hresp] at herr ⊢
    simp only [Nat.add_sub_cancel]
    rw [hresp]
    injection herr with herr
    rw [herr]
  | case2 ti ctx a opts hm c resp hresp hcond ih =>
    rw [executeWithRetry.eq_def] at herr ⊢
    simp only [hresp] at herr ⊢
    rw [dif_pos hcond] at herr ⊢
    exact ih herr
  | case3 ti ctx a opts hm c resp hresp hcond =>
    rw [executeWithRetry.eq_def] at herr
    simp only [hresp] at herr
    rw [dif_neg hcond] at herr
    exact absurd herr (by simp)

/-- The exponential backoff value is never negative. -/
theorem getExponentialBackOffTime_nonneg (attempts : Nat) :
    0 ≤ getExponentialBackOffTime attempts := by
  unfold getExponentialBackOffTime jsRound
  have h1 : (1 : ℚ) ≤ 2 ^ attempts := by
    have h0 : 1 ≤ 2 ^ attempts := @Nat.one_le_two_pow attempts
    calc (1 : ℚ) ≤ ((2 ^ attempts : Nat) : ℚ) := by exact_mod_cast h0
      _ = 2 ^ attempts := by push_cast; ring
  have h2 : (0 : ℚ) ≤ (1 / 2) * (2 ^ attempts - 1) := by nlinarith
  have h3 : (0 : ℤ) ≤ ⌊(1 / 2) * ((2 : ℚ) ^ attempts - 1) + 1 / 2⌋ :=
    Int.floor_nonneg.mpr (by linarith)
  exact_mod_cast h3

/-! The claim theorems. -/

/-- C1: the claim states that the payload-replayability check (`isBuffered`)
returns false for a PUT/PATCH/POST request whose Content-Type header equals
application/octet-stream, so that a POST of an octet-stream returning 503
yields exactly one downstream invocation.  The source binds
`const method = options` — the options object (or `undefined`), never a
method string — so the strict-equality method test is always false and
`isBuffered` returns true on every input; on a POST request with
Content-Type application/octet-stream and a constant 503 downstream,
`maxRetries = 1`, the loop performs a retry: two downstream invocations. -/
theorem C1_isBuffered_code_bug :
    (∀ request opts, isBuffered request opts = true)
    ∧ isBuffered "https://example.com"
        (some ⟨some "POST", [("Content-Type", "application/octet-stream")]⟩) = true
    ∧ (execute (fun (_ : Nat) => (Except.ok resp503 : Except Unit FetchResponse)) dpNone 0 noJitter
        ctxPostStream optsOne 180).2 = 2 := by
  refine ⟨isBuffered_eq_true, by decide, ?_⟩
  simp [execute, executeWithRetry, isRetry, isBuffered, resp503, ctxPostStream, optsOne,
    alwaysRetry, RETRY_STATUS_CODES, setRequestHeader, setHeader, dpNone, noJitter,
    jsStrictEqS, getRequestHeader, headersGet, HttpMethod.PUT, HttpMethod.PATCH,
    HttpMethod.POST]

/-- C3 counterexample: the claim says a numeric Retry-After hint becomes the
delay verbatim, but the cap `min(newDelay, maxDelay + jitter)` also applies
to hints: with Retry-After 1000, `maxDelay = 180` and zero jitter the
computed delay is 180, not 1000. -/
theorem C3_hint_cap_counterexample :
    (getDelay dpNone 0 noJitter 0 ⟨503, some [("Retry-After", "1000")]⟩ 1 3 180).1
      = some 180 ∧ (180 : ℚ) ≠ 1000 := by
  constructor
  · simp +decide [getDelay, headersGet, jsNumber, digitsToNat, jsMin, dpNone, noJitter]
  · norm_num

/-- C3 (amended): when the Retry-After header parses as a number `q`, the
delay is `min(q, maxDelay + jitter)` — no jitter is added to the hint itself
and the backoff branch (and its jitter draw) is not used, only the single
cap draw; when it does not parse as a number it is parsed as a date `t` and
the delay is `min(round((t - now) / 1000), maxDelay + jitter)`. -/
theorem C3_hint_delay (dateParse : String → Option Int) (now : Int) (g : Nat → ℚ)
    (i retryAttempts st : Nat) (d m : ℚ) (hs : List (String × String)) (ra : String)
    (hra : headersGet hs "Retry-After" = some ra) :
    (∀ q : ℚ, jsNumber ra = some q →
      getDelay dateParse now g i ⟨st, some hs⟩ retryAttempts d m
        = (some (min q (m + g i)), i + 1))
    ∧ (jsNumber ra = none → ∀ t : Int, dateParse ra = some t →
      getDelay dateParse now g i ⟨st, some hs⟩ retryAttempts d m
        = (some (min ((jsRound (((t : ℚ) - (now : ℚ)) / 1000)) : ℚ) (m + g i)), i + 1)) := by
  constructor
  · intro q hq
    simp [getDelay, hra, hq, jsMin]
  · intro hnan t ht
    simp [getDelay, hra, hnan, ht, jsMin]

/-- C3 witness: Retry-After 2 with the default 180-second cap and zero
jitter yields exactly 2 seconds. -/
theorem C3_hint_delay_witness :
    headersGet [("Retry-After", "2")] "Retry-After" = some "2"
    ∧ jsNumber "2" = some 2
    ∧ getDelay dpNone 0 noJitter 0 ⟨503, some [("Retry-After", "2")]⟩ 1 3 180
        = (some (min 2 (180 + noJitter 0)), 0 + 1)
    ∧ min (2 : ℚ) (180 + noJitter 0) = 2 := by
  refine ⟨by simp +decide [headersGet], by simp +decide [jsNumber, digitsToNat], ?_,
    by norm_num [noJitter]⟩
  exact (C3_hint_delay dpNone 0 noJitter 0 1 503 3 180 _ "2"
    (by simp +decide [headersGet])).1 2 (by simp +decide [jsNumber, digitsToNat])

/-- C4 counterexample: the claim says a Retry-After date that parses to an
invalid instant is reported as a calculation failure (a distinct error
outcome); in the code the NaN produced by the subtraction survives
`Math.round` and `Math.min` and is silently handed to `sleep`: the delay
computation returns NaN (`none`) and the executor retries and terminates
normally (two invocations, `Except.ok`), raising nothing. -/
theorem C4_nan_not_reported_counterexample :
    (getDelay dpNone 0 noJitter 0 respBadDate 1 3 180).1 = none
    ∧ ((execute (fun (_ : Nat) => (Except.ok respBadDate : Except Unit FetchResponse)) dpNone 0
        noJitter ctxGet optsOne 180).1.isOk = true
      ∧ (execute (fun (_ : Nat) => (Except.ok respBadDate : Except Unit FetchResponse)) dpNone 0
          noJitter ctxGet optsOne 180).2 = 2) := by
  constructor
  · simp +decide [getDelay, headersGet, jsNumber, digitsToNat, jsMin, dpNone, respBadDate]
  · constructor <;>
      simp [execute, executeWithRetry, isRetry, isBuffered, respBadDate, ctxGet, optsOne,
        alwaysRetry, RETRY_STATUS_CODES, setRequestHeader, setHeader, dpNone, noJitter,
        jsStrictEqS, getRequestHeader, headersGet, HttpMethod.PUT, HttpMethod.PATCH,
        HttpMethod.POST, Except.isOk, Except.toBool]

/-- C4 (amended): when the Retry-After hint is neither numeric nor a date
the environment can parse, the delay computation silently yields NaN
(`none`) — no distinct error outcome is produced. -/
theorem C4_invalid_date_yields_nan (dateParse : String → Option Int) (now : Int)
    (g : Nat → ℚ) (i retryAttempts st : Nat) (d m : ℚ) (hs : List (String × String))
    (ra : String) (hra : headersGet hs "Retry-After" = some ra)
    (hnan : jsNumber ra = none) (hdate : dateParse ra = none) :
    (getDelay dateParse now g i ⟨st, some hs⟩ retryAttempts d m).1 = none := by
  simp [getDelay, hra, hnan, hdate, jsMin]

/-- C4 witness: the amended statement at the concrete malformed hint. -/
theorem C4_invalid_date_yields_nan_witness :
    headersGet [("Retry-After", "next Tuesday")] "Retry-After" = some "next Tuesday"
    ∧ jsNumber "next Tuesday" = none
    ∧ dpNone "next Tuesday" = none
    ∧ (getDelay dpNone 0 noJitter 0 ⟨503, some [("Retry-After", "next Tuesday")]⟩ 1 3
        180).1 = none := by
  refine ⟨by simp +decide [headersGet], by decide, rfl, ?_⟩
  exact C4_invalid_date_yields_nan dpNone 0 noJitter 0 1 503 3 180 _ "next Tuesday"
    (by simp +decide [headersGet]) (by decide) rfl

/-- C5: with no Retry-After hint the raw delay is
`round((1/2) * (2 ^ attempts - 1)) + baseDelay + jitter` when the attempt
number is at least 2 and `baseDelay + jitter` otherwise, the returned delay
is the minimum of the raw delay and `maxDelay + jitter`, and it therefore
never exceeds `maxDelay + jitter` (the jitter added to the cap being the
draw made in the `Math.min` call). -/
theorem C5_backoff_formula (dateParse : String → Option Int) (now : Int) (g : Nat → ℚ)
    (i retryAttempts : Nat) (d m : ℚ) (resp : FetchResponse)
    (hnohint : resp.headers = none
      ∨ ∃ hs, resp.headers = some hs ∧ headersGet hs "Retry-After" = none) :
    getDelay dateParse now g i resp retryAttempts d m
      = (some (min
          (if 2 ≤ retryAttempts
            then ((jsRound ((1 / 2) * (2 ^ retryAttempts - 1))) : ℚ) + d + g i
            else d + g i)
          (m + g (i + 1))), i + 2)
    ∧ ∀ v : ℚ, (getDelay dateParse now g i resp retryAttempts d m).1 = some v →
        v ≤ m + g (i + 1) := by
  obtain ⟨st, hdrs⟩ := resp
  have hmain : getDelay dateParse now g i ⟨st, hdrs⟩ retryAttempts d m
      = (some (min
          (if 2 ≤ retryAttempts
            then ((jsRound ((1 / 2) * (2 ^ retryAttempts - 1))) : ℚ) + d + g i
            else d + g i)
          (m + g (i + 1))), i + 2) := by
    rcases hnohint with h | ⟨hs, hh, hget⟩
    · simp only at h
      subst h
      simp [getDelay, jsMin, getExponentialBackOffTime, ge_iff_le]
    · simp only at hh
      subst hh
      simp [getDelay, hget, jsMin, getExponentialBackOffTime, ge_iff_le]
  refine ⟨hmain, ?_⟩
  intro v hv
  rw [hmain] at hv
  simp only [Option.some.injEq] at hv
  rw [← hv]
  exact min_le_right _ _

/-- C5 witness: attempt 3, base delay 1, no hint, zero jitter: the delay is
`round(3.5) + 1 = 5` and is below the cap. -/
theorem C5_backoff_formula_witness :
    ((⟨503, some []⟩ : FetchResponse).headers = none
      ∨ ∃ hs, (⟨503, some []⟩ : FetchResponse).headers = some hs
          ∧ headersGet hs "Retry-After" = none)
    ∧ getDelay dpNone 0 noJitter 0 ⟨503, some []⟩ 3 1 180
        = (some (min
            (if 2 ≤ 3 then ((jsRound ((1 / 2) * (2 ^ 3 - 1))) : ℚ) + 1 + noJitter 0
              else 1 + noJitter 0)
            (180 + noJitter 1)), 0 + 2)
    ∧ (getDelay dpNone 0 noJitter 0 ⟨503, some []⟩ 3 1 180).1 = some 5
    ∧ (5 : ℚ) ≤ 180 + noJitter 1 := by
  have hno : (⟨503, some []⟩ : FetchResponse).headers = none
      ∨ ∃ hs, (⟨503, some []⟩ : FetchResponse).headers = some hs
          ∧ headersGet hs "Retry-After" = none := Or.inr ⟨[], rfl, rfl⟩
  have hev : (getDelay dpNone 0 noJitter 0 ⟨503, some []⟩ 3 1 180).1 = some 5 := by
    simp +decide [getDelay, headersGet, jsMin, getExponentialBackOffTime, jsRound,
      dpNone, noJitter]
    norm_num [Int.floor_eq_iff]
  exact ⟨hno, (C5_backoff_formula dpNone 0 noJitter 0 3 1 180 _ hno).1, hev,
    (C5_backoff_formula dpNone 0 noJitter 0 3 1 180 _ hno).2 5 hev⟩

/-- C7 counterexample: the claim says a single jitter value is drawn per
delay computation and reused for both the raw delay and the cap; in the
code the no-hint branch consumes two independent draws (the tape advances
by two), and two tapes that agree on the first draw but not the second
produce different delays — the result is not a function of one draw. -/
theorem C7_single_draw_counterexample :
    (getDelay dpNone 0 noJitter 0 ⟨503, some []⟩ 1 5 0).2 = 0 + 2
    ∧ halfJitterLater 0 = noJitter 0
    ∧ (getDelay dpNone 0 noJitter 0 ⟨503, some []⟩ 1 5 0).1
        ≠ (getDelay dpNone 0 halfJitterLater 0 ⟨503, some []⟩ 1 5 0).1 := by
  refine ⟨by simp +decide [getDelay, headersGet, jsMin, dpNone, noJitter], by decide, ?_⟩
  have h1 : (getDelay dpNone 0 noJitter 0 ⟨503, some []⟩ 1 5 0).1 = some 0 := by
    simp +decide [getDelay, headersGet, jsMin, dpNone, noJitter]
  have h2 : (getDelay dpNone 0 halfJitterLater 0 ⟨503, some []⟩ 1 5 0).1
      = some (1 / 2) := by
    simp +decide [getDelay, headersGet, jsMin, dpNone, halfJitterLater]
    norm_num
  rw [h1, h2]
  norm_num

/-- C7 (amended): a delay computation with no Retry-After hint draws two
independent jitter values — tape positions `i` (added to the raw backoff
delay) and `i + 1` (added to the cap) — and a computation with a hint draws
exactly one (the cap draw). -/
theorem C7_jitter_draws (dateParse : String → Option Int) (now : Int) (g : Nat → ℚ)
    (i retryAttempts : Nat) (d m : ℚ) :
    (∀ resp : FetchResponse, (resp.headers = none
        ∨ ∃ hs, resp.headers = some hs ∧ headersGet hs "Retry-After" = none) →
      (getDelay dateParse now g i resp retryAttempts d m).2 = i + 2
      ∧ (getDelay dateParse now g i resp retryAttempts d m).1
          = some (min
              (if 2 ≤ retryAttempts then getExponentialBackOffTime retryAttempts + d + g i
                else d + g i)
              (m + g (i + 1))))
    ∧ (∀ (st : Nat) (hs : List (String × String)) (ra : String),
        headersGet hs "Retry-After" = some ra →
        (getDelay dateParse now g i ⟨st, some hs⟩ retryAttempts d m).2 = i + 1) := by
  constructor
  · rintro ⟨st, hdrs⟩ hnohint
    rcases hnohint with h | ⟨hs, hh, hget⟩
    · simp only at h
      subst h
      constructor <;> simp [getDelay, jsMin, ge_iff_le]
    · simp only at hh
      subst hh
      constructor <;> simp [getDelay, hget, jsMin, ge_iff_le]
  · intro st hs ra hra
    simp [getDelay, hra]

/-- C7 witness: the amended statement at concrete inputs — two draws are
consumed with no hint, one with a hint. -/
theorem C7_jitter_draws_witness :
    ((⟨503, some []⟩ : FetchResponse).headers = none
      ∨ ∃ hs, (⟨503, some []⟩ : FetchResponse).headers = some hs
          ∧ headersGet hs "Retry-After" = none)
    ∧ (getDelay dpNone 0 noJitter 0 ⟨503, some []⟩ 1 3 180).2 = 0 + 2
    ∧ headersGet [("Retry-After", "2")] "Retry-After" = some "2"
    ∧ (getDelay dpNone 0 noJitter 0 ⟨503, some [("Retry-After", "2")]⟩ 1 3 180).2
        = 0 + 1 := by
  have hno : (⟨503, some []⟩ : FetchResponse).headers = none
      ∨ ∃ hs, (⟨503, some []⟩ : FetchResponse).headers = some hs
          ∧ headersGet hs "Retry-After" = none := Or.inr ⟨[], rfl, rfl⟩
  exact ⟨hno,
    ((C7_jitter_draws dpNone 0 noJitter 0 1 3 180).1 _ hno).1,
    by simp +decide [headersGet],
    (C7_jitter_draws dpNone 0 noJitter 0 1 3 180).2 503 _ "2"
      (by simp +decide [headersGet])⟩

/-- C8 counterexample: the claim says the computed delay is always
non-negative, but a negative numeric Retry-After hint is returned verbatim:
Retry-After -5 yields a delay of -5 seconds. -/
theorem C8_negative_delay_counterexample :
    (getDelay dpNone 0 noJitter 0 ⟨503, some [("Retry-After", "-5")]⟩ 1 3 180).1
      = some (-5) ∧ ((-5 : ℚ) < 0) := by
  constructor
  · simp +decide [getDelay, headersGet, jsNumber, digitsToNat, jsMin, dpNone, noJitter]
  · norm_num

/-- C8 (amended): the computed delay is non-negative provided the base
delay, the cap and every jitter draw are non-negative and the hint, when
present, itself denotes a non-negative delay (a non-negative numeric value,
or a date whose rounded distance from now is non-negative); a negative
numeric hint or past date is returned as a negative delay. -/
theorem C8_delay_nonneg (dateParse : String → Option Int) (now : Int) (g : Nat → ℚ)
    (i retryAttempts : Nat) (d m : ℚ) (resp : FetchResponse)
    (hg : ∀ k, 0 ≤ g k) (hd : 0 ≤ d) (hm : 0 ≤ m) :
    ((resp.headers = none
        ∨ ∃ hs, resp.headers = some hs ∧ headersGet hs "Retry-After" = none) →
      ∀ v : ℚ, (getDelay dateParse now g i resp retryAttempts d m).1 = some v → 0 ≤ v)
    ∧ (∀ (hs : List (String × String)) (ra : String) (q : ℚ),
        resp.headers = some hs → headersGet hs "Retry-After" = some ra →
        jsNumber ra = some q → 0 ≤ q →
        ∀ v : ℚ, (getDelay dateParse now g i resp retryAttempts d m).1 = some v → 0 ≤ v)
    ∧ (∀ (hs : List (String × String)) (ra : String) (t : Int),
        resp.headers = some hs → headersGet hs "Retry-After" = some ra →
        jsNumber ra = none → dateParse ra = some t →
        0 ≤ ((jsRound (((t : ℚ) - (now : ℚ)) / 1000)) : ℚ) →
        ∀ v : ℚ, (getDelay dateParse now g i resp retryAttempts d m).1 = some v →
          0 ≤ v) := by
  obtain ⟨st, hdrs⟩ := resp
  refine ⟨?_, ?_, ?_⟩
  · intro hnohint v hv
    have := (C5_backoff_formula dateParse now g i retryAttempts d m ⟨st, hdrs⟩ hnohint).1
    rw [this] at hv
    simp only [Option.some.injEq] at hv
    rw [← hv]
    have hb : 0 ≤ getExponentialBackOffTime retryAttempts :=
      getExponentialBackOffTime_nonneg retryAttempts
    unfold getExponentialBackOffTime at hb
    refine le_min ?_ (by have := hg (i + 1); linarith)
    by_cases h2 : 2 ≤ retryAttempts
    · rw [if_pos h2]
      have := hg i
      linarith
    · rw [if_neg h2]
      have := hg i
      linarith
  · intro hs ra q hh hra hq hq0 v hv
    simp only at hh
    subst hh
    rw [((C3_hint_delay dateParse now g i retryAttempts st d m hs ra hra).1 q hq :)] at hv
    simp only [Option.some.injEq] at hv
    rw [← hv]
    exact le_min hq0 (by have := hg i; linarith)
  · intro hs ra t hh hra hnan ht h0 v hv
    simp only at hh
    subst hh
    rw [((C3_hint_delay dateParse now g i retryAttempts st d m hs ra hra).2 hnan t ht :)]
      at hv
    simp only [Option.some.injEq] at hv
    rw [← hv]
    exact le_min h0 (by have := hg i; linarith)

/-- C8 witness: the no-hint case at attempt 1, base delay 3, cap 180, zero
jitter: the delay is 3 and is non-negative. -/
theorem C8_delay_nonneg_witness :
    (∀ k, 0 ≤ noJitter k)
    ∧ ((⟨503, some []⟩ : FetchResponse).headers = none
        ∨ ∃ hs, (⟨503, some []⟩ : FetchResponse).headers = some hs
            ∧ headersGet hs "Retry-After" = none)
    ∧ (getDelay dpNone 0 noJitter 0 ⟨503, some []⟩ 1 3 180).1 = some 3
    ∧ (0 : ℚ) ≤ 3 := by
  have hg : ∀ k, 0 ≤ noJitter k := fun k => le_refl 0
  have hno : (⟨503, some []⟩ : FetchResponse).headers = none
      ∨ ∃ hs, (⟨503, some []⟩ : FetchResponse).headers = some hs
          ∧ headersGet hs "Retry-After" = none := Or.inr ⟨[], rfl, rfl⟩
  have hev : (getDelay dpNone 0 noJitter 0 ⟨503, some []⟩ 1 3 180).1 = some 3 := by
    simp +decide [getDelay, headersGet, jsMin, dpNone, noJitter]
  exact ⟨hg, hno, hev,
    (C8_delay_nonneg dpNone 0 noJitter 0 1 3 180 _ hg (by norm_num) (by norm_num)).1
      hno 3 hev⟩

/-- C10: the `maxDelay + jitter` cap is applied to server-hinted delays as
well: when the hint (numeric, or date-derived) exceeds `maxDelay + jitter`,
the returned delay is the cap, not the hint. -/
theorem C10_cap_on_hints (dateParse : String → Option Int) (now : Int) (g : Nat → ℚ)
    (i retryAttempts st : Nat) (d m : ℚ) (hs : List (String × String)) (ra : String)
    (hra : headersGet hs "Retry-After" = some ra) :
    (∀ q : ℚ, jsNumber ra = some q → m + g i < q →
      (getDelay dateParse now g i ⟨st, some hs⟩ retryAttempts d m).1 = some (m + g i))
    ∧ (jsNumber ra = none → ∀ t : Int, dateParse ra = some t →
        m + g i < ((jsRound (((t : ℚ) - (now : ℚ)) / 1000)) : ℚ) →
        (getDelay dateParse now g i ⟨st, some hs⟩ retryAttempts d m).1
          = some (m + g i)) := by
  constructor
  · intro q hq hlt
    rw [((C3_hint_delay dateParse now g i retryAttempts st d m hs ra hra).1 q hq :)]
    simp only
    rw [min_eq_right hlt.le]
  · intro hnan t ht hlt
    rw [((C3_hint_delay dateParse now g i retryAttempts st d m hs ra hra).2 hnan t ht :)]
    simp only
    rw [min_eq_right hlt.le]

/-- C10 witness: Retry-After 500 with cap 100 and zero jitter yields 100. -/
theorem C10_cap_on_hints_witness :
    headersGet [("Retry-After", "500")] "Retry-After" = some "500"
    ∧ jsNumber "500" = some 500
    ∧ (100 : ℚ) + noJitter 0 < 500
    ∧ (getDelay dpNone 0 noJitter 0 ⟨503, some [("Retry-After", "500")]⟩ 1 3 100).1
        = some (100 + noJitter 0) := by
  refine ⟨by simp +decide [headersGet], by simp +decide [jsNumber, digitsToNat],
    by norm_num [noJitter], ?_⟩
  exact (C10_cap_on_hints dpNone 0 noJitter 0 1 503 3 100 _ "500"
    (by simp +decide [headersGet])).1 500
    (by simp +decide [jsNumber, digitsToNat]) (by norm_num [noJitter])

/-- C2: invocation-count invariant.  A first response with a status outside
the retryable set yields exactly one downstream invocation regardless of
`maxRetries`; every exchange makes at most `maxRetries + 1` invocations;
and when every response is received, remains retryable, and the predicate
always approves, exactly `maxRetries + 1` invocations occur. -/
theorem C2_invocation_count :
    (∀ (ε : Type) (respond : Nat → Except ε FetchResponse)
        (dateParse : String → Option Int) (now : Int) (g : Nat → ℚ)
        (ctx : MiddlewareContext) (opts : RetryHandlerOptions) (handlerMaxDelay : ℚ)
        (r : FetchResponse), respond 0 = Except.ok r → isRetry r = false →
        (execute respond dateParse now g ctx opts handlerMaxDelay).2 = 1)
    ∧ (∀ (ε : Type) (respond : Nat → Except ε FetchResponse)
        (dateParse : String → Option Int) (now : Int) (g : Nat → ℚ)
        (ctx : MiddlewareContext) (opts : RetryHandlerOptions) (handlerMaxDelay : ℚ),
        (execute respond dateParse now g ctx opts handlerMaxDelay).2
          ≤ opts.maxRetries + 1)
    ∧ (∀ (ε : Type) (respond : Nat → Except ε FetchResponse)
        (dateParse : String → Option Int) (now : Int) (g : Nat → ℚ)
        (ctx : MiddlewareContext) (opts : RetryHandlerOptions) (handlerMaxDelay : ℚ),
        (∀ k, ∃ r, respond k = Except.ok r ∧ isRetry r = true) →
        (∀ d a req o resp, opts.shouldRetry d a req o resp = true) →
        (execute respond dateParse now g ctx opts handlerMaxDelay).2
          = opts.maxRetries + 1) := by
  refine ⟨?_, ?_, ?_⟩
  · intro ε respond dateParse now g ctx opts hm r h0 hret
    show (executeWithRetry respond dateParse now g 0 ctx 0 opts hm 0).2 = 1
    rw [executeWithRetry.eq_def]
    simp [h0, hret]
  · intro ε respond dateParse now g ctx opts hm
    have := executeWithRetry_count_le respond dateParse now g 0 ctx 0 opts hm 0
    simpa using this
  · intro ε respond dateParse now g ctx opts hm hok hsr
    have := executeWithRetry_count_exact respond dateParse now g hok 0 ctx 0 opts hm 0 hsr
    simpa using this

/-- C2 witness: with an always-200 downstream one invocation occurs; with an
always-503 downstream and the default configuration (three retries, an
always-approving predicate) the bound holds and exactly four invocations
occur. -/
theorem C2_invocation_count_witness :
    ((fun (_ : Nat) => (Except.ok resp200 : Except Unit FetchResponse)) 0 = Except.ok resp200
      ∧ isRetry resp200 = false
      ∧ (execute (fun (_ : Nat) => (Except.ok resp200 : Except Unit FetchResponse)) dpNone 0
          noJitter ctxGet optsDefault 180).2 = 1)
    ∧ (execute (fun (_ : Nat) => (Except.ok resp503 : Except Unit FetchResponse)) dpNone 0
        noJitter ctxGet optsDefault 180).2 ≤ optsDefault.maxRetries + 1
    ∧ ((∀ k, ∃ r, (fun (_ : Nat) => (Except.ok resp503 : Except Unit FetchResponse)) k
          = Except.ok r ∧ isRetry r = true)
      ∧ (∀ d a req o resp, optsDefault.shouldRetry d a req o resp = true)
      ∧ (execute (fun (_ : Nat) => (Except.ok resp503 : Except Unit FetchResponse)) dpNone 0
          noJitter ctxGet optsDefault 180).2 = optsDefault.maxRetries + 1) := by
  refine ⟨⟨rfl, rfl, ?_⟩, ?_, ⟨fun k => ⟨resp503, rfl, rfl⟩, fun d a req o resp => rfl, ?_⟩⟩
  · exact C2_invocation_count.1 Unit
      (fun (_ : Nat) => (Except.ok resp200 : Except Unit FetchResponse))
      dpNone 0 noJitter ctxGet optsDefault 180 resp200 rfl rfl
  · exact C2_invocation_count.2.1 Unit
      (fun (_ : Nat) => (Except.ok resp503 : Except Unit FetchResponse))
      dpNone 0 noJitter ctxGet optsDefault 180
  · exact C2_invocation_count.2.2 Unit
      (fun (_ : Nat) => (Except.ok resp503 : Except Unit FetchResponse))
      dpNone 0 noJitter ctxGet optsDefault 180
      (fun k => ⟨resp503, rfl, rfl⟩) (fun d a req o resp => rfl)

/-- C6: after the first response is received, the loop retries iff all four
conditions hold — attempt budget remaining, retryable status, replayable
payload, and predicate approval — so the invocation count is 1 exactly when
their conjunction fails; when it fails the loop returns the context holding
that response as-is; and an always-false predicate forces exactly one
invocation for every downstream and configuration. -/
theorem C6_approval_conjunction :
    (∀ (ε : Type) (respond : Nat → Except ε FetchResponse)
        (dateParse : String → Option Int) (now : Int) (g : Nat → ℚ)
        (ctx : MiddlewareContext) (opts : RetryHandlerOptions) (handlerMaxDelay : ℚ)
        (r : FetchResponse), respond 0 = Except.ok r →
        ((execute respond dateParse now g ctx opts handlerMaxDelay).2 = 1 ↔
          ¬(0 < opts.maxRetries ∧ isRetry r = true
            ∧ isBuffered ctx.request ctx.reqOptions = true
            ∧ opts.shouldRetry opts.delay 0 ctx.request ctx.reqOptions r = true)))
    ∧ (∀ (ε : Type) (respond : Nat → Except ε FetchResponse)
        (dateParse : String → Option Int) (now : Int) (g : Nat → ℚ)
        (ctx : MiddlewareContext) (opts : RetryHandlerOptions) (handlerMaxDelay : ℚ)
        (r : FetchResponse), respond 0 = Except.ok r →
        ¬(0 < opts.maxRetries ∧ isRetry r = true
          ∧ isBuffered ctx.request ctx.reqOptions = true
          ∧ opts.shouldRetry opts.delay 0 ctx.request ctx.reqOptions r = true) →
        execute respond dateParse now g ctx opts handlerMaxDelay
          = (Except.ok { ctx with response := r }, 1))
    ∧ (∀ (ε : Type) (respond : Nat → Except ε FetchResponse)
        (dateParse : String → Option Int) (now : Int) (g : Nat → ℚ)
        (ctx : MiddlewareContext) (opts : RetryHandlerOptions) (handlerMaxDelay : ℚ),
        (∀ d a req o resp, opts.shouldRetry d a req o resp = false) →
        (execute respond dateParse now g ctx opts handlerMaxDelay).2 = 1) := by
  have hneg : ∀ (ε : Type) (respond : Nat → Except ε FetchResponse)
      (dateParse : String → Option Int) (now : Int) (g : Nat → ℚ)
      (ctx : MiddlewareContext) (opts : RetryHandlerOptions) (handlerMaxDelay : ℚ)
      (r : FetchResponse), respond 0 = Except.ok r →
      ¬(0 < opts.maxRetries ∧ isRetry r = true
        ∧ isBuffered ctx.request ctx.reqOptions = true
        ∧ opts.shouldRetry opts.delay 0 ctx.request ctx.reqOptions r = true) →
      execute respond dateParse now g ctx opts handlerMaxDelay
        = (Except.ok { ctx with response := r }, 1) := by
    intro ε respond dateParse now g ctx opts hm r h0 hnc
    show executeWithRetry respond dateParse now g 0 ctx 0 opts hm 0 = _
    rw [executeWithRetry.eq_def]
    simp only [h0]
    rw [dif_neg ?hc]
    case hc =>
      simp only [Bool.and_eq_true, decide_eq_true_eq]
      intro habs
      exact hnc ⟨habs.1.1.1, habs.1.1.2, habs.1.2, habs.2⟩
  refine ⟨?_, hneg, ?_⟩
  · intro ε respond dateParse now g ctx opts hm r h0
    by_cases hc : (0 < opts.maxRetries ∧ isRetry r = true
        ∧ isBuffered ctx.request ctx.reqOptions = true
        ∧ opts.shouldRetry opts.delay 0 ctx.request ctx.reqOptions r = true)
    · constructor
      · intro h1
        exfalso
        obtain ⟨hc1, hc2, hc3, hc4⟩ := hc
        have hcb : (decide (0 < opts.maxRetries) && isRetry r
            && isBuffered ctx.request ctx.reqOptions
            && opts.shouldRetry opts.delay 0 ctx.request ctx.reqOptions r) = true := by
          simp only [Bool.and_eq_true, decide_eq_true_eq]
          exact ⟨⟨⟨hc1, hc2⟩, hc3⟩, hc4⟩
        have h1e : (executeWithRetry respond dateParse now g 0 ctx 0 opts hm 0).2 = 1 := h1
        rw [executeWithRetry.eq_def] at h1e
        simp only [h0] at h1e
        rw [dif_pos hcb] at h1e
        have hge := executeWithRetry_count_ge respond dateParse now g
          (getDelay dateParse now g 0 r (0 + 1) opts.delay hm).2
          { request := ctx.request,
            reqOptions := setRequestHeader ctx.request ctx.reqOptions "Retry-Attempt"
              (toString (0 + 1)),
            response := r }
          (0 + 1) opts hm (0 + 1)
        omega
      · intro hnc
        exact absurd hc hnc
    · constructor
      · intro _
        exact hc
      · intro _
        have h2 := congrArg Prod.snd (hneg ε respond dateParse now g ctx opts hm r h0 hc)
        simpa using h2
  · intro ε respond dateParse now g ctx opts hm hsr
    show (executeWithRetry respond dateParse now g 0 ctx 0 opts hm 0).2 = 1
    rw [executeWithRetry.eq_def]
    cases h0 : respond 0 with
    | error e => simp
    | ok r => simp [hsr]

/-- C6 witness: with a constant 503 downstream and an always-false
predicate, the conjunction fails and exactly one invocation occurs; the
characterization also holds at this input. -/
theorem C6_approval_conjunction_witness :
    ((fun (_ : Nat) => (Except.ok resp503 : Except Unit FetchResponse)) 0 = Except.ok resp503
      ∧ ((execute (fun (_ : Nat) => (Except.ok resp503 : Except Unit FetchResponse)) dpNone 0
            noJitter ctxGet optsNever 180).2 = 1 ↔
          ¬(0 < optsNever.maxRetries ∧ isRetry resp503 = true
            ∧ isBuffered ctxGet.request ctxGet.reqOptions = true
            ∧ optsNever.shouldRetry optsNever.delay 0 ctxGet.request ctxGet.reqOptions
                resp503 = true)))
    ∧ ((∀ d a req o resp, optsNever.shouldRetry d a req o resp = false)
      ∧ (execute (fun (_ : Nat) => (Except.ok resp503 : Except Unit FetchResponse)) dpNone 0
          noJitter ctxGet optsNever 180).2 = 1) := by
  refine ⟨⟨rfl, ?_⟩, fun d a req o resp => rfl, ?_⟩
  · exact C6_approval_conjunction.1 Unit
      (fun (_ : Nat) => (Except.ok resp503 : Except Unit FetchResponse))
      dpNone 0 noJitter ctxGet optsNever 180 resp503 rfl
  · exact C6_approval_conjunction.2.2 Unit
      (fun (_ : Nat) => (Except.ok resp503 : Except Unit FetchResponse))
      dpNone 0 noJitter ctxGet optsNever 180 (fun d a req o resp => rfl)

/-- C9: a transport-level failure raised by the downstream step propagates
to the caller unmodified and immediately: a failure on the first invocation
ends the exchange with that error after exactly one invocation, and in
general an error outcome is exactly the error the downstream step raised at
the last invocation made — no retry follows an exception. -/
theorem C9_transport_failure_propagates :
    (∀ (ε : Type) (respond : Nat → Except ε FetchResponse)
        (dateParse : String → Option Int) (now : Int) (g : Nat → ℚ)
        (ctx : MiddlewareContext) (opts : RetryHandlerOptions) (handlerMaxDelay : ℚ)
        (e : ε), respond 0 = Except.error e →
        execute respond dateParse now g ctx opts handlerMaxDelay = (Except.error e, 1))
    ∧ (∀ (ε : Type) (respond : Nat → Except ε FetchResponse)
        (dateParse : String → Option Int) (now : Int) (g : Nat → ℚ)
        (ctx : MiddlewareContext) (opts : RetryHandlerOptions) (handlerMaxDelay : ℚ)
        (e : ε),
        (execute respond dateParse now g ctx opts handlerMaxDelay).1 = Except.error e →
        respond ((execute respond dateParse now g ctx opts handlerMaxDelay).2 - 1)
          = Except.error e) := by
  constructor
  · intro ε respond dateParse now g ctx opts hm e h0
    show executeWithRetry respond dateParse now g 0 ctx 0 opts hm 0 = _
    rw [executeWithRetry.eq_def]
    simp [h0]
  · intro ε respond dateParse now g ctx opts hm e herr
    exact executeWithRetry_error respond dateParse now g 0 ctx 0 opts hm 0 e herr

/-- C9 witness: a downstream that always raises ends the exchange with that
error after one invocation, and the error returned is the one raised by the
invocation the count points at. -/
theorem C9_transport_failure_propagates_witness :
    (fun (_ : Nat) => (Except.error "reset" : Except String FetchResponse)) 0
      = Except.error "reset"
    ∧ execute (fun (_ : Nat) => (Except.error "reset" : Except String FetchResponse)) dpNone 0
        noJitter ctxGet optsDefault 180 = (Except.error "reset", 1)
    ∧ (fun (_ : Nat) => (Except.error "reset" : Except String FetchResponse))
        ((execute (fun (_ : Nat) => (Except.error "reset" : Except String FetchResponse)) dpNone 0
          noJitter ctxGet optsDefault 180).2 - 1) = Except.error "reset" := by
  refine ⟨rfl, ?_, ?_⟩
  · exact C9_transport_failure_propagates.1 String
      (fun (_ : Nat) => (Except.error "reset" : Except String FetchResponse))
      dpNone 0 noJitter ctxGet optsDefault 180 "reset" rfl
  · exact C9_transport_failure_propagates.2 String
      (fun (_ : Nat) => (Except.error "reset" : Except String FetchResponse))
      dpNone 0 noJitter ctxGet optsDefault 180 "reset"
      (by rw [C9_transport_failure_propagates.1 String
        (fun (_ : Nat) => (Except.error "reset" : Except String FetchResponse))
        dpNone 0 noJitter ctxGet optsDefault 180 "reset" rfl])

end RetryHandler
